import Mathlib

/-!
Shallow embedding of the USB-PD sink firmware core
(src/protocol/header.rs, src/protocol/request.rs,
src/protocol/sink_capabilities.rs, src/protocol_engine.rs,
src/policy_engine.rs).

Machine integers are modelled as Nat with explicit truncation where the
source wraps.  The asynchronous PHY collaborator is modelled as an oracle
environment: a queue of results for each kind of PHY call, consumed in
program order.  Every PHY transmission performed by the engines is recorded
in an ordered trace, so temporal claims (a GoodCRC precedes delivery, a
hard-reset signal was or was not emitted) become statements about that
trace.
-/

set_option maxRecDepth 8000

namespace UsbPd

/-- Bit value of a boolean flag, as packed by the bilge bitfield types. -/
def bitOf (b : Bool) : Nat := if b then 1 else 0

/-- Control message types from src/protocol/header.rs, with the 4-bit wire
values assigned there.  The fallback variant Reserved gets the next
discriminant after SoftReset, 0xE. -/
inductive ControlMessageType where
  | GoodCRC
  | GotoMin
  | Accept
  | Reject
  | Ping
  | PsRdy
  | GetSourceCap
  | GetSinkCap
  | DrSwap
  | PrSwap
  | VconnSwap
  | Wait
  | SoftReset
  | Reserved
deriving DecidableEq

/-- Wire value of a control message type (the Into u4 direction). -/
def ControlMessageType.toU4 : ControlMessageType → Nat
  | .GoodCRC => 1
  | .GotoMin => 2
  | .Accept => 3
  | .Reject => 4
  | .Ping => 5
  | .PsRdy => 6
  | .GetSourceCap => 7
  | .GetSinkCap => 8
  | .DrSwap => 9
  | .PrSwap => 10
  | .VconnSwap => 11
  | .Wait => 12
  | .SoftReset => 13
  | .Reserved => 14

/-- Decoding a 4-bit value into a control message type (the From u4
direction); unlisted values map to the fallback variant Reserved. -/
def ControlMessageType.ofU4 (v : Nat) : ControlMessageType :=
  if v = 1 then .GoodCRC
  else if v = 2 then .GotoMin
  else if v = 3 then .Accept
  else if v = 4 then .Reject
  else if v = 5 then .Ping
  else if v = 6 then .PsRdy
  else if v = 7 then .GetSourceCap
  else if v = 8 then .GetSinkCap
  else if v = 9 then .DrSwap
  else if v = 10 then .PrSwap
  else if v = 11 then .VconnSwap
  else if v = 12 then .Wait
  else if v = 13 then .SoftReset
  else .Reserved

/-- Data message types from src/protocol/header.rs (the source spells the
first variant SourceCapabilites).  The engines never encode the fallback
variant Reserved, so its numeric value is irrelevant to every theorem
below; 0 is used as a placeholder. -/
inductive DataMessageType where
  | SourceCapabilites
  | Request
  | Bist
  | SinkCapabilities
  | VendorDefined
  | Reserved
deriving DecidableEq

/-- Wire value of a data message type. -/
def DataMessageType.toU4 : DataMessageType → Nat
  | .SourceCapabilites => 1
  | .Request => 2
  | .Bist => 3
  | .SinkCapabilities => 4
  | .VendorDefined => 15
  | .Reserved => 0

/-- Decoding a 4-bit value into a data message type; unlisted values map to
the fallback variant Reserved. -/
def DataMessageType.ofU4 (v : Nat) : DataMessageType :=
  if v = 1 then .SourceCapabilites
  else if v = 2 then .Request
  else if v = 3 then .Bist
  else if v = 4 then .SinkCapabilities
  else if v = 15 then .VendorDefined
  else .Reserved

/-- Port data role (1 bit). -/
inductive PortDataRole where
  | UpstreamFacingPort
  | DownstreamFacingPort
deriving DecidableEq

/-- Bit value of a port data role. -/
def PortDataRole.toBits : PortDataRole → Nat
  | .UpstreamFacingPort => 0
  | .DownstreamFacingPort => 1

/-- Decoding of a port data role bit. -/
def PortDataRole.ofBits (v : Nat) : PortDataRole :=
  if v = 0 then .UpstreamFacingPort else .DownstreamFacingPort

/-- Specification revision (2 bits, fallback Reserved takes value 2). -/
inductive SpecificationRevision where
  | Revision1_0
  | Revision2_0
  | Reserved
deriving DecidableEq

/-- Bit value of a specification revision. -/
def SpecificationRevision.toBits : SpecificationRevision → Nat
  | .Revision1_0 => 0
  | .Revision2_0 => 1
  | .Reserved => 2

/-- Decoding of a specification revision field. -/
def SpecificationRevision.ofBits (v : Nat) : SpecificationRevision :=
  if v = 0 then .Revision1_0 else if v = 1 then .Revision2_0 else .Reserved

/-- Port power role (1 bit). -/
inductive PortPowerRole where
  | Sink
  | Source
deriving DecidableEq

/-- Bit value of a port power role. -/
def PortPowerRole.toBits : PortPowerRole → Nat
  | .Sink => 0
  | .Source => 1

/-- Decoding of a port power role bit. -/
def PortPowerRole.ofBits (v : Nat) : PortPowerRole :=
  if v = 0 then .Sink else .Source

/-- The 16-bit message header from src/protocol/header.rs.  Field order is
the bilge packing order, least significant bits first. -/
structure Header where
  message_type : Nat
  reserved1 : Bool
  port_data_role : PortDataRole
  specification_revision : SpecificationRevision
  port_power_role : PortPowerRole
  message_id : Nat
  number_of_data_objects : Nat
  reserved2 : Bool
deriving DecidableEq

/-- Packing of a header into its 16-bit wire value: message_type occupies
bits 0-3, reserved1 bit 4, port_data_role bit 5, specification_revision
bits 6-7, port_power_role bit 8, message_id bits 9-11,
number_of_data_objects bits 12-14, reserved2 bit 15. -/
def Header.encode (h : Header) : Nat :=
  h.message_type % 16
  + 16 * bitOf h.reserved1
  + 32 * h.port_data_role.toBits
  + 64 * h.specification_revision.toBits
  + 256 * h.port_power_role.toBits
  + 512 * (h.message_id % 8)
  + 4096 * (h.number_of_data_objects % 8)
  + 32768 * bitOf h.reserved2

/-- Unpacking of a 16-bit wire value into a header. -/
def Header.decode (v : Nat) : Header :=
  { message_type := v % 16
    reserved1 := v / 16 % 2 = 1
    port_data_role := PortDataRole.ofBits (v / 32 % 2)
    specification_revision := SpecificationRevision.ofBits (v / 64 % 4)
    port_power_role := PortPowerRole.ofBits (v / 256 % 2)
    message_id := v / 512 % 8
    number_of_data_objects := v / 4096 % 8
    reserved2 := v / 32768 % 2 = 1 }

/-- The constant header template built in ProtocolEngine::new:
message type 0, UFP data role, revision 2.0, sink power role, id 0,
no data objects. -/
def header_template : Header :=
  { message_type := 0
    reserved1 := false
    port_data_role := .UpstreamFacingPort
    specification_revision := .Revision2_0
    port_power_role := .Sink
    message_id := 0
    number_of_data_objects := 0
    reserved2 := false }

/-- The 32-bit Request data object from src/protocol/request.rs, fields in
bilge packing order (the source spells the second field operating_curent). -/
structure Request where
  min_operating_current : Nat
  operating_curent : Nat
  reserved1 : Nat
  no_usb_suspend : Bool
  usb_communications_capable : Bool
  capability_mismatch : Bool
  give_back_flag : Bool
  object_position : Nat
  reserved2 : Bool
deriving DecidableEq

/-- Packing of a Request object into its 32-bit wire value:
min_operating_current bits 0-9, operating_curent bits 10-19, reserved
bits 20-23, four flag bits 24-27, object_position bits 28-30,
reserved bit 31. -/
def Request.encode (r : Request) : Nat :=
  r.min_operating_current % 1024
  + 1024 * (r.operating_curent % 1024)
  + 1048576 * (r.reserved1 % 16)
  + 16777216 * bitOf r.no_usb_suspend
  + 33554432 * bitOf r.usb_communications_capable
  + 67108864 * bitOf r.capability_mismatch
  + 134217728 * bitOf r.give_back_flag
  + 268435456 * (r.object_position % 8)
  + 2147483648 * bitOf r.reserved2

/-- The 32-bit sink FixedSupply PDO from src/protocol/sink_capabilities.rs,
fields in bilge packing order. -/
structure FixedSupply where
  operating_current : Nat
  voltage : Nat
  reserved1 : Nat
  dual_role_data : Bool
  usb_communications_capable : Bool
  unconstrained_power : Bool
  higher_capabilty : Bool
  dual_power_role : Bool
  fixed_supply : Nat
deriving DecidableEq

/-- Packing of a FixedSupply PDO into its 32-bit wire value:
operating_current bits 0-9, voltage bits 10-19, reserved bits 20-24,
five flag bits 25-29, fixed_supply tag bits 30-31. -/
def FixedSupply.encode (s : FixedSupply) : Nat :=
  s.operating_current % 1024
  + 1024 * (s.voltage % 1024)
  + 1048576 * (s.reserved1 % 32)
  + 33554432 * bitOf s.dual_role_data
  + 67108864 * bitOf s.usb_communications_capable
  + 134217728 * bitOf s.unconstrained_power
  + 268435456 * bitOf s.higher_capabilty
  + 536870912 * bitOf s.dual_power_role
  + 1073741824 * (s.fixed_supply % 4)

/-- Unpacking of a 32-bit wire value into a FixedSupply PDO. -/
def FixedSupply.decode (v : Nat) : FixedSupply :=
  { operating_current := v % 1024
    voltage := v / 1024 % 1024
    reserved1 := v / 1048576 % 32
    dual_role_data := v / 33554432 % 2 = 1
    usb_communications_capable := v / 67108864 % 2 = 1
    unconstrained_power := v / 134217728 % 2 = 1
    higher_capabilty := v / 268435456 % 2 = 1
    dual_power_role := v / 536870912 % 2 = 1
    fixed_supply := v / 1073741824 % 4 }

/-- Little-endian bytes of a 16-bit value. -/
def u16LeBytes (v : Nat) : List Nat := [v % 256, v / 256 % 256]

/-- Little-endian bytes of a 32-bit value. -/
def u32LeBytes (v : Nat) : List Nat :=
  [v % 256, v / 256 % 256, v / 65536 % 256, v / 16777216 % 256]

/-- The 16-bit value stored little-endian at a byte offset of a buffer
(missing bytes read as zero, mirroring that the source never reads past
the checked length). -/
def leU16 (bytes : List Nat) (off : Nat) : Nat :=
  bytes.getD off 0 + 256 * bytes.getD (off + 1) 0

/-- The 32-bit value stored little-endian at a byte offset of a buffer. -/
def leU32 (bytes : List Nat) (off : Nat) : Nat :=
  bytes.getD off 0 + 256 * bytes.getD (off + 1) 0
  + 65536 * bytes.getD (off + 2) 0 + 16777216 * bytes.getD (off + 3) 0

/-- A typed message as exchanged between the engines
(src/protocol_engine.rs).  Data objects are carried as 32-bit values. -/
inductive Message where
  | control (t : ControlMessageType)
  | data (t : DataMessageType) (objs : List Nat)
deriving DecidableEq

/-- Result of one PHY receive call (embassy RxError collapsed into
constructors): a byte frame, a CRC error, an overrun, or a hard reset. -/
inductive RxResult where
  | ok (bytes : List Nat)
  | errCrc
  | errOverrun
  | errHardReset
deriving DecidableEq

/-- Result of one PHY transmit call. -/
inductive TxResult where
  | ok
  | errDiscarded
  | errHardReset
deriving DecidableEq

/-- Result of one timeout-bounded PHY receive (the GoodCRC wait inside
ProtocolEngine::transmit): either the timeout fired or the receive
finished with the given result. -/
inductive TimedRx where
  | timeout
  | ok (bytes : List Nat)
  | errCrc
  | errOverrun
  | errHardReset
deriving DecidableEq

/-- One recorded outbound PHY action: a frame handed to phy transmit, or a
hard-reset ordered set emitted by transmit_hard_reset. -/
inductive PhyCall where
  | frame (bytes : List Nat)
  | hardResetSignal
deriving DecidableEq

/-- Mutable state of the protocol engine (src/protocol_engine.rs):
the deduplication id of the last accepted inbound message and the next
outbound message id. -/
structure ProtocolEngineState where
  rx_message_id : Option Nat
  tx_message_id : Nat
deriving DecidableEq

/-- State after handle_hard_reset: both ids reset. -/
def handle_hard_reset : ProtocolEngineState :=
  { rx_message_id := none, tx_message_id := 0 }

/-- The GoodCRC reply frame built in ProtocolEngine::receive: the header
template with message type GoodCRC and the received message id, serialized
little-endian. -/
def goodCrcFrame (mid : Nat) : List Nat :=
  u16LeBytes (Header.encode
    { header_template with
        message_type := ControlMessageType.GoodCRC.toU4
        message_id := mid })

/-- The message value returned by ProtocolEngine::receive for an accepted
frame: a control message when there are no data objects, otherwise a data
message whose objects are the little-endian 32-bit words following the
header, truncated to the caller-supplied buffer capacity. -/
def decodeMessage (objBufLen : Nat) (bytes : List Nat) : Message :=
  let rx_header := Header.decode (leU16 bytes 0)
  let num_objects := rx_header.number_of_data_objects
  if num_objects = 0 then
    .control (ControlMessageType.ofU4 rx_header.message_type)
  else
    .data (DataMessageType.ofU4 rx_header.message_type)
      ((List.range (min objBufLen num_objects)).map
        (fun i => leU32 bytes (2 + 4 * i)))

/-- Result tag of a run of the receive loop. -/
inductive RecvResultTag where
  | msg (m : Message)
  | hardReset
  | outOfEnv
deriving DecidableEq

/-- Outcome of a run of the receive loop: the result, the engine state,
the unconsumed oracle queues, and the trace of PHY transmissions made
during the run. -/
structure RecvOut where
  res : RecvResultTag
  st : ProtocolEngineState
  rxRest : List RxResult
  txRest : List TxResult
  trace : List PhyCall
deriving DecidableEq

/-- Prepending already-performed PHY calls to an outcome's trace. -/
def RecvOut.withTrace (tr : List PhyCall) (o : RecvOut) : RecvOut :=
  { o with trace := tr ++ o.trace }

@[simp] theorem RecvOut.withTrace_res (tr : List PhyCall) (o : RecvOut) :
    (o.withTrace tr).res = o.res := rfl

@[simp] theorem RecvOut.withTrace_st (tr : List PhyCall) (o : RecvOut) :
    (o.withTrace tr).st = o.st := rfl

@[simp] theorem RecvOut.withTrace_rxRest (tr : List PhyCall) (o : RecvOut) :
    (o.withTrace tr).rxRest = o.rxRest := rfl

@[simp] theorem RecvOut.withTrace_txRest (tr : List PhyCall) (o : RecvOut) :
    (o.withTrace tr).txRest = o.txRest := rfl

@[simp] theorem RecvOut.withTrace_trace (tr : List PhyCall) (o : RecvOut) :
    (o.withTrace tr).trace = tr ++ o.trace := rfl

/-- The receive loop of ProtocolEngine::receive, line by line from
src/protocol_engine.rs.  Each iteration consumes one phy receive result;
transmitting the GoodCRC reply consumes one phy transmit result.  CRC and
overrun errors, short frames and frames whose length disagrees with the
header restart the loop; a hard reset resets both ids and returns; the
SoftReset bookkeeping and the message-id deduplication run after the
GoodCRC reply, and run as well when the GoodCRC transmission was reported
Discarded, because the Discarded match arm of the source only logs and
does not restart the loop. -/
def receiveAux (objBufLen : Nat) (st : ProtocolEngineState) :
    List RxResult → List TxResult → RecvOut
  | [], txs => ⟨.outOfEnv, st, [], txs, []⟩
  | .errCrc :: rxs, txs => receiveAux objBufLen st rxs txs
  | .errOverrun :: rxs, txs => receiveAux objBufLen st rxs txs
  | .errHardReset :: rxs, txs => ⟨.hardReset, handle_hard_reset, rxs, txs, []⟩
  | .ok bytes :: rxs, txs =>
    let n := bytes.length
    if n < 2 then receiveAux objBufLen st rxs txs
    else
      let rx_header := Header.decode (leU16 bytes 0)
      let num_objects := rx_header.number_of_data_objects
      let expected_len := 2 + 4 * num_objects
      if n ≠ expected_len then receiveAux objBufLen st rxs txs
      else
        let tx_buf := goodCrcFrame rx_header.message_id
        match txs with
        | [] => ⟨.outOfEnv, st, rxs, [], []⟩
        | t :: txs' =>
          match t with
          | .errHardReset =>
            ⟨.hardReset, handle_hard_reset, rxs, txs', [.frame tx_buf]⟩
          | _ =>
            let st1 : ProtocolEngineState :=
              if num_objects = 0
                  ∧ rx_header.message_type = ControlMessageType.SoftReset.toU4
              then handle_hard_reset
              else st
            if st1.rx_message_id = some rx_header.message_id then
              (receiveAux objBufLen st1 rxs txs').withTrace [.frame tx_buf]
            else
              ⟨.msg (decodeMessage objBufLen bytes),
                { st1 with rx_message_id := some rx_header.message_id },
                rxs, txs', [.frame tx_buf]⟩

/-- Result tag of a run of the transmit retry loop. -/
inductive TxLoopRes where
  | done (success : Bool)
  | hardReset
  | outOfEnv
deriving DecidableEq

/-- Outcome of the transmit retry loop: the result, the unconsumed oracle
queues and the trace of PHY transmissions. -/
structure TxLoopOut where
  res : TxLoopRes
  txRest : List TxResult
  grxRest : List TimedRx
  trace : List PhyCall
deriving DecidableEq

/-- Prepending already-performed PHY calls to a transmit-loop trace. -/
def TxLoopOut.withTrace (tr : List PhyCall) (o : TxLoopOut) : TxLoopOut :=
  { o with trace := tr ++ o.trace }

@[simp] theorem TxLoopOut.txLoopWithTrace_res (tr : List PhyCall) (o : TxLoopOut) :
    (o.withTrace tr).res = o.res := rfl

@[simp] theorem TxLoopOut.txLoopWithTrace_trace (tr : List PhyCall) (o : TxLoopOut) :
    (o.withTrace tr).trace = tr ++ o.trace := rfl

/-- RETRY_COUNT from src/protocol_engine.rs; the retry loop runs
RETRY_COUNT + 1 times. -/
def RETRY_COUNT : Nat := 3

/-- TIMEOUT_RECEIVE from src/protocol_engine.rs, the GoodCRC wait bound in
milliseconds.  In the model the expiry of this bound is an oracle event. -/
def TIMEOUT_RECEIVE : Nat := 3

/-- The retry loop of ProtocolEngine::transmit: up to fuel attempts, each
handing the same frame to the PHY and then waiting (with timeout) for a
2-byte GoodCRC whose message id matches the current outbound id.  A
Discarded line, an invalid or mistimed reply restart the attempt; a hard
reset aborts; running out of attempts yields success = false. -/
def transmitAux (frame : List Nat) (txMsgId : Nat) :
    Nat → List TxResult → List TimedRx → TxLoopOut
  | 0, txs, grxs => ⟨.done false, txs, grxs, []⟩
  | fuel + 1, txs, grxs =>
    match txs with
    | [] => ⟨.outOfEnv, [], grxs, []⟩
    | t :: txs' =>
      match t with
      | .errDiscarded =>
        (transmitAux frame txMsgId fuel txs' grxs).withTrace [.frame frame]
      | .errHardReset => ⟨.hardReset, txs', grxs, [.frame frame]⟩
      | .ok =>
        match grxs with
        | [] => ⟨.outOfEnv, txs', [], [.frame frame]⟩
        | g :: grxs' =>
          match g with
          | .ok bytes =>
            if bytes.length = 2 then
              let goodcrc := Header.decode (leU16 bytes 0)
              if goodcrc.number_of_data_objects ≠ 0
                  ∨ goodcrc.message_type ≠ ControlMessageType.GoodCRC.toU4
                  ∨ goodcrc.message_id ≠ txMsgId then
                (transmitAux frame txMsgId fuel txs' grxs').withTrace
                  [.frame frame]
              else
                ⟨.done true, txs', grxs', [.frame frame]⟩
            else
              (transmitAux frame txMsgId fuel txs' grxs').withTrace
                [.frame frame]
          | .errCrc =>
            (transmitAux frame txMsgId fuel txs' grxs').withTrace
              [.frame frame]
          | .errOverrun =>
            (transmitAux frame txMsgId fuel txs' grxs').withTrace
              [.frame frame]
          | .errHardReset => ⟨.hardReset, txs', grxs', [.frame frame]⟩
          | .timeout =>
            (transmitAux frame txMsgId fuel txs' grxs').withTrace
              [.frame frame]

/-- Outcome of ProtocolEngine::transmit. -/
structure TransmitOut where
  res : TxLoopRes
  st : ProtocolEngineState
  txRest : List TxResult
  grxRest : List TimedRx
  trace : List PhyCall
deriving DecidableEq

/-- The message type wire value and data object list of a message, as
destructured at the top of ProtocolEngine::transmit. -/
def Message.typeAndObjs : Message → Nat × List Nat
  | .control t => (t.toU4, [])
  | .data t objs => (t.toU4, objs)

/-- The wire frame assembled by ProtocolEngine::transmit: the header
template with the current outbound id, the message type and the object
count, serialized little-endian and followed by the little-endian data
objects. -/
def transmitFrame (txMsgId : Nat) (msg : Message) : List Nat :=
  let p := msg.typeAndObjs
  u16LeBytes (Header.encode
    { header_template with
        message_id := txMsgId
        message_type := p.1
        number_of_data_objects := p.2.length })
  ++ p.2.flatMap u32LeBytes

/-- ProtocolEngine::transmit from src/protocol_engine.rs.  A SoftReset
message clears rx_message_id before the frame is assembled; the frame then
carries the current tx_message_id; the retry loop runs RETRY_COUNT + 1
times.  The final statement of the source evaluates
tx_message_id.wrapping_add(1) and discards the result, so the stored
tx_message_id is left unchanged on the non-hard-reset paths. -/
def ProtocolEngine.transmit (st : ProtocolEngineState) (msg : Message)
    (txs : List TxResult) (grxs : List TimedRx) : TransmitOut :=
  let st0 : ProtocolEngineState :=
    if msg = .control .SoftReset then { st with rx_message_id := none }
    else st
  let frame := transmitFrame st0.tx_message_id msg
  let o := transmitAux frame st0.tx_message_id (RETRY_COUNT + 1) txs grxs
  match o.res with
  | .hardReset => ⟨.hardReset, handle_hard_reset, o.txRest, o.grxRest, o.trace⟩
  | r => ⟨r, st0, o.txRest, o.grxRest, o.trace⟩

/-- TIMEOUT_SENDER_RESPONSE from src/policy_engine.rs, in milliseconds. -/
def TIMEOUT_SENDER_RESPONSE : Nat := 30

/-- TIMEOUT_PS_TRANSITION from src/policy_engine.rs, in milliseconds. -/
def TIMEOUT_PS_TRANSITION : Nat := 500

/-- Oracle environment of the policy engine: queues of results for the four
kinds of suspension the engines perform, consumed in program order.  The
tmo queue answers each with-timeout wrapper around a protocol-engine
receive: true means the deadline expired before a message arrived. -/
structure Env where
  rx : List RxResult
  tx : List TxResult
  grx : List TimedRx
  tmo : List Bool
deriving DecidableEq

/-- Result of a policy engine operation: a value, or the Error variants of
src/policy_engine.rs, or exhaustion of the oracle environment. -/
inductive PERes (α : Type) where
  | ok (a : α)
  | hardReset
  | softReset
  | outOfEnv
deriving DecidableEq

/-- Outcome of a policy engine operation: the result, the protocol engine
state, the remaining environment, and the trace of PHY transmissions. -/
structure PEOut (α : Type) where
  res : PERes α
  st : ProtocolEngineState
  env : Env
  trace : List PhyCall

/-- Sequencing of policy engine operations: the question-mark operator of
the source.  Errors and environment exhaustion propagate; traces
concatenate in execution order. -/
def PEOut.bind {α β : Type} (o : PEOut α)
    (f : α → ProtocolEngineState → Env → PEOut β) : PEOut β :=
  match o.res with
  | .ok a =>
    let r := f a o.st o.env
    ⟨r.res, r.st, r.env, o.trace ++ r.trace⟩
  | .hardReset => ⟨.hardReset, o.st, o.env, o.trace⟩
  | .softReset => ⟨.softReset, o.st, o.env, o.trace⟩
  | .outOfEnv => ⟨.outOfEnv, o.st, o.env, o.trace⟩

/-- ProtocolEngine::receive lifted to the environment: runs the receive
loop on the rx and tx queues. -/
def ProtocolEngine.receiveE (objBufLen : Nat) (st : ProtocolEngineState)
    (env : Env) : PEOut Message :=
  let o := receiveAux objBufLen st env.rx env.tx
  let env1 : Env := { env with rx := o.rxRest, tx := o.txRest }
  match o.res with
  | .msg m => ⟨.ok m, o.st, env1, o.trace⟩
  | .hardReset => ⟨.hardReset, o.st, env1, o.trace⟩
  | .outOfEnv => ⟨.outOfEnv, o.st, env1, o.trace⟩

/-- ProtocolEngine::transmit lifted to the environment, returning the
success flag. -/
def ProtocolEngine.transmitE (msg : Message) (st : ProtocolEngineState)
    (env : Env) : PEOut Bool :=
  let o := ProtocolEngine.transmit st msg env.tx env.grx
  let env1 : Env := { env with tx := o.txRest, grx := o.grxRest }
  match o.res with
  | .done success => ⟨.ok success, o.st, env1, o.trace⟩
  | .hardReset => ⟨.hardReset, o.st, env1, o.trace⟩
  | .outOfEnv => ⟨.outOfEnv, o.st, env1, o.trace⟩

/-- PolicyEngine::transmit_soft_reset from src/policy_engine.rs: transmit
SoftReset; if the protocol engine reports failure, emit a hard-reset
signal and fail with HardReset; otherwise await an Accept on a bare
protocol-engine receive bounded by TIMEOUT_SENDER_RESPONSE, failing with
HardReset on timeout (without a hard-reset signal) and emitting a
hard-reset signal when a different message arrives. -/
def PolicyEngine.transmit_soft_reset (st : ProtocolEngineState) (env : Env) :
    PEOut Unit :=
  (ProtocolEngine.transmitE (.control .SoftReset) st env).bind
    fun success st1 env1 =>
      if success then
        match env1.tmo with
        | [] => ⟨.outOfEnv, st1, env1, []⟩
        | timedOut :: tmoRest =>
          let env2 : Env := { env1 with tmo := tmoRest }
          if timedOut then ⟨.hardReset, st1, env2, []⟩
          else
            (ProtocolEngine.receiveE 0 st1 env2).bind fun m st2 env3 =>
              if m = .control .Accept then ⟨.ok (), st2, env3, []⟩
              else ⟨.hardReset, st2, env3, [.hardResetSignal]⟩
      else ⟨.hardReset, st1, env1, [.hardResetSignal]⟩

/-- PolicyEngine::transmit from src/policy_engine.rs: transmit through the
protocol engine; when the retries are exhausted without GoodCRC, run the
SoftReset escalation and fail with SoftReset. -/
def PolicyEngine.transmit (msg : Message) (st : ProtocolEngineState)
    (env : Env) : PEOut Unit :=
  (ProtocolEngine.transmitE msg st env).bind fun success st1 env1 =>
    if success then ⟨.ok (), st1, env1, []⟩
    else
      (PolicyEngine.transmit_soft_reset st1 env1).bind fun _ st2 env2 =>
        ⟨.softReset, st2, env2, []⟩

/-- PolicyEngine::receive from src/policy_engine.rs: receive through the
protocol engine; a SoftReset message is answered with Accept and turned
into the SoftReset error instead of being delivered. -/
def PolicyEngine.receive (objBufLen : Nat) (st : ProtocolEngineState)
    (env : Env) : PEOut Message :=
  (ProtocolEngine.receiveE objBufLen st env).bind fun m st1 env1 =>
    if m = .control .SoftReset then
      (PolicyEngine.transmit (.control .Accept) st1 env1).bind
        fun _ st2 env2 => ⟨.softReset, st2, env2, []⟩
    else ⟨.ok m, st1, env1, []⟩

/-- PolicyEngine::receive_timeout from src/policy_engine.rs: the policy
engine receive wrapper with a zero-length object buffer, bounded by the
given deadline; expiry of the deadline fails with HardReset.  The deadline
value is carried for fidelity; its expiry is an oracle event. -/
def PolicyEngine.receive_timeout (timeoutMs : Nat)
    (st : ProtocolEngineState) (env : Env) : PEOut Message :=
  match env.tmo with
  | [] => ⟨.outOfEnv, st, env, []⟩
  | timedOut :: tmoRest =>
    let env1 : Env := { env with tmo := tmoRest }
    if timedOut then ⟨.hardReset, st, env1, []⟩
    else PolicyEngine.receive 0 st env1

/-- The Request data object built by PolicyEngine::power_negotiation:
minimum and requested current both the configured operating current, no
flags, object position 1. -/
def requestObj (operating_current : Nat) : Nat :=
  Request.encode
    { min_operating_current := operating_current
      operating_curent := operating_current
      reserved1 := 0
      no_usb_suspend := false
      usb_communications_capable := false
      capability_mismatch := false
      give_back_flag := false
      object_position := 1
      reserved2 := false }

/-- PolicyEngine::power_negotiation from src/policy_engine.rs: send the
Request, await Accept within TIMEOUT_SENDER_RESPONSE (Reject and Wait end
the negotiation unsuccessfully, anything else escalates through
SoftReset), then await PsRdy within TIMEOUT_PS_TRANSITION.  A timeout
inside receive_timeout propagates as HardReset. -/
def PolicyEngine.power_negotiation (operating_current : Nat)
    (st : ProtocolEngineState) (env : Env) : PEOut Bool :=
  (PolicyEngine.transmit (.data .Request [requestObj operating_current])
      st env).bind fun _ st1 env1 =>
    (PolicyEngine.receive_timeout TIMEOUT_SENDER_RESPONSE st1 env1).bind
      fun m st2 env2 =>
        match m with
        | .control .Accept =>
          (PolicyEngine.receive_timeout TIMEOUT_PS_TRANSITION st2 env2).bind
            fun m2 st3 env3 =>
              match m2 with
              | .control .PsRdy => ⟨.ok true, st3, env3, []⟩
              | _ =>
                (PolicyEngine.transmit_soft_reset st3 env3).bind
                  fun _ st4 env4 => ⟨.softReset, st4, env4, []⟩
        | .control .Reject => ⟨.ok false, st2, env2, []⟩
        | .control .Wait => ⟨.ok false, st2, env2, []⟩
        | _ =>
          (PolicyEngine.transmit_soft_reset st2 env2).bind
            fun _ st3 env3 => ⟨.softReset, st3, env3, []⟩

/-- The FixedSupply object built by PolicyEngine::sink_capabilities: the
configured operating current, the literal voltage value 10 written with
the comment 50mV resolution, and every flag false. -/
def sinkCapObj (operating_current : Nat) : FixedSupply :=
  { operating_current := operating_current
    voltage := 10
    reserved1 := 0
    dual_role_data := false
    usb_communications_capable := false
    unconstrained_power := false
    higher_capabilty := false
    dual_power_role := false
    fixed_supply := 0 }

/-- PolicyEngine::sink_capabilities from src/policy_engine.rs: transmit the
single FixedSupply PDO as a SinkCapabilities data message. -/
def PolicyEngine.sink_capabilities (operating_current : Nat)
    (st : ProtocolEngineState) (env : Env) : PEOut Unit :=
  PolicyEngine.transmit
    (.data .SinkCapabilities [(sinkCapObj operating_current).encode]) st env

/-- PolicyEngine::handle_message from src/policy_engine.rs: the dispatch
table of the sink role loop.  Ping and VendorDefined are ignored,
GetSinkCap answers with the sink capabilities, SourceCapabilities starts a
power negotiation whose success sets the ready flag, and everything else
is rejected. -/
def PolicyEngine.handle_message (operating_current : Nat) (msg : Message)
    (was_ready : Bool) (st : ProtocolEngineState) (env : Env) : PEOut Bool :=
  match msg with
  | .control .Ping => ⟨.ok was_ready, st, env, []⟩
  | .control .GetSinkCap =>
    (PolicyEngine.sink_capabilities operating_current st env).bind
      fun _ st1 env1 => ⟨.ok was_ready, st1, env1, []⟩
  | .data .SourceCapabilites _ =>
    (PolicyEngine.power_negotiation operating_current st env).bind
      fun success st1 env1 =>
        ⟨.ok (if success then true else was_ready), st1, env1, []⟩
  | .data .VendorDefined _ => ⟨.ok was_ready, st, env, []⟩
  | _ =>
    (PolicyEngine.transmit (.control .Reject) st env).bind
      fun _ st1 env1 => ⟨.ok was_ready, st1, env1, []⟩

/-- The operating_current stored by PolicyEngine::new for a configured
current in milliamperes: the u16 sum ma + 9 divided by 10, passed to the
u10 constructor.  The constructor asserts that its argument fits in 10
bits, and the u16 sum itself must not overflow, so construction fails
(none) when either bound is violated. -/
def PolicyEngine.new (operating_current_ma : Nat) : Option Nat :=
  if operating_current_ma + 9 ≤ 65535 then
    let v := (operating_current_ma + 9) / 10
    if v ≤ 1023 then some v else none
  else none

/-- The data object list of a message (empty for control messages). -/
def dataObjs : Message → List Nat
  | .control _ => []
  | .data _ objs => objs

/-- Transient drop conditions of the receive loop: a PHY CRC or overrun
error, a frame shorter than two bytes, or a frame length that disagrees
with the header's object count. -/
def isTransientDrop : RxResult → Bool
  | .errCrc => true
  | .errOverrun => true
  | .errHardReset => false
  | .ok bytes =>
    decide (bytes.length < 2)
    || decide (bytes.length
        ≠ 2 + 4 * (Header.decode (leU16 bytes 0)).number_of_data_objects)

/-- A wire frame that passes the receive loop's length checks, carries the
given message id, and is not a SoftReset control frame. -/
def isValidSameIdFrame (x : Nat) : RxResult → Bool
  | .ok bytes =>
    let h := Header.decode (leU16 bytes 0)
    decide (bytes.length = 2 + 4 * h.number_of_data_objects)
    && decide (h.message_id = x)
    && ! (decide (h.number_of_data_objects = 0)
          && decide (h.message_type = ControlMessageType.SoftReset.toU4))
  | _ => false

/-! ## Helper lemmas -/

theorem transmitAux_trace_all (frame : List Nat) (mid : Nat) :
    ∀ (fuel : Nat) (txs : List TxResult) (grxs : List TimedRx)
      (c : PhyCall), c ∈ (transmitAux frame mid fuel txs grxs).trace →
      c = .frame frame := by
  intro fuel
  induction fuel with
  | zero =>
    intro txs grxs c hc
    simp [transmitAux] at hc
  | succ n ih =>
    intro txs grxs c hc
    match txs with
    | [] => simp [transmitAux] at hc
    | t :: txs' =>
      cases t with
      | errDiscarded =>
        simp only [transmitAux, TxLoopOut.txLoopWithTrace_trace, List.mem_append,
          List.mem_singleton] at hc
        rcases hc with rfl | hc
        · rfl
        · exact ih txs' grxs c hc
      | errHardReset =>
        simp only [transmitAux, List.mem_singleton] at hc
        exact hc
      | ok =>
        match grxs with
        | [] =>
          simp only [transmitAux, List.mem_singleton] at hc
          exact hc
        | g :: grxs' =>
          cases g with
          | ok bytes =>
            simp only [transmitAux] at hc
            split at hc
            · split at hc
              · simp only [TxLoopOut.txLoopWithTrace_trace, List.mem_append,
                  List.mem_singleton] at hc
                rcases hc with rfl | hc
                · rfl
                · exact ih txs' grxs' c hc
              · simp only [List.mem_singleton] at hc
                exact hc
            · simp only [TxLoopOut.txLoopWithTrace_trace, List.mem_append,
                List.mem_singleton] at hc
              rcases hc with rfl | hc
              · rfl
              · exact ih txs' grxs' c hc
          | errCrc =>
            simp only [transmitAux, TxLoopOut.txLoopWithTrace_trace,
              List.mem_append, List.mem_singleton] at hc
            rcases hc with rfl | hc
            · rfl
            · exact ih txs' grxs' c hc
          | errOverrun =>
            simp only [transmitAux, TxLoopOut.txLoopWithTrace_trace,
              List.mem_append, List.mem_singleton] at hc
            rcases hc with rfl | hc
            · rfl
            · exact ih txs' grxs' c hc
          | errHardReset =>
            simp only [transmitAux, List.mem_singleton] at hc
            exact hc
          | timeout =>
            simp only [transmitAux, TxLoopOut.txLoopWithTrace_trace,
              List.mem_append, List.mem_singleton] at hc
            rcases hc with rfl | hc
            · rfl
            · exact ih txs' grxs' c hc

theorem ProtocolEngine.transmit_trace_all (st : ProtocolEngineState)
    (msg : Message) (txs : List TxResult) (grxs : List TimedRx) (c : PhyCall)
    (hc : c ∈ (ProtocolEngine.transmit st msg txs grxs).trace) :
    c = .frame (transmitFrame st.tx_message_id msg) := by
  have hid : (if msg = .control .SoftReset
      then { st with rx_message_id := none } else st).tx_message_id
      = st.tx_message_id := by
    split <;> rfl
  simp only [ProtocolEngine.transmit] at hc
  rw [hid] at hc
  split at hc <;>
    exact transmitAux_trace_all _ _ _ _ _ c hc

theorem ProtocolEngine.transmit_no_hard_reset_signal
    (st : ProtocolEngineState) (msg : Message) (txs : List TxResult)
    (grxs : List TimedRx) :
    PhyCall.hardResetSignal ∉ (ProtocolEngine.transmit st msg txs grxs).trace := by
  intro hmem
  have := ProtocolEngine.transmit_trace_all st msg txs grxs _ hmem
  simp at this

theorem leU16_u16LeBytes_append (v : Nat) (rest : List Nat) :
    leU16 (u16LeBytes v ++ rest) 0 = v % 65536 := by
  simp only [leU16, u16LeBytes, List.cons_append, List.getD_cons_zero,
    List.getD_cons_succ]
  omega

theorem Header.decode_message_id (v : Nat) :
    (Header.decode v).message_id = v / 512 % 8 := rfl

theorem Header.encode_message_id_bits (h : Header) :
    Header.encode h % 65536 / 512 % 8 = h.message_id % 8 := by
  have hb1 : bitOf h.reserved1 ≤ 1 := by cases h.reserved1 <;> simp [bitOf]
  have hb2 : bitOf h.reserved2 ≤ 1 := by cases h.reserved2 <;> simp [bitOf]
  have hpd : h.port_data_role.toBits ≤ 1 := by
    cases h.port_data_role <;> simp [PortDataRole.toBits]
  have hsr : h.specification_revision.toBits ≤ 2 := by
    cases h.specification_revision <;> simp [SpecificationRevision.toBits]
  have hpp : h.port_power_role.toBits ≤ 1 := by
    cases h.port_power_role <;> simp [PortPowerRole.toBits]
  simp only [Header.encode]
  omega

/-- The message id carried on the wire by a frame assembled by
ProtocolEngine::transmit is the outbound id it was assembled with,
reduced modulo 8. -/
theorem transmitFrame_message_id (txMsgId : Nat) (msg : Message) :
    (Header.decode (leU16 (transmitFrame txMsgId msg) 0)).message_id
      = txMsgId % 8 := by
  unfold transmitFrame
  rw [leU16_u16LeBytes_append, Header.decode_message_id,
    Header.encode_message_id_bits]

/-! ## Claim theorems -/

/-- C1: the claim says tx_message_id after every non-hard-reset transmit
call equals the previous value plus one modulo eight.  The final statement
of ProtocolEngine::transmit evaluates tx_message_id.wrapping_add(1) and
discards the result, so the field is never advanced.  This theorem
evaluates the model at two failing inputs: a transmit of Control(Ping)
from the initial state that succeeds with a matching GoodCRC, and one
whose four attempts all time out; in both runs tx_message_id is still 0
after the call where the claim requires 1. -/
theorem C1_transmit_leaves_tx_message_id_unchanged :
    (ProtocolEngine.transmit ⟨none, 0⟩ (.control .Ping)
      [.ok] [.ok [65, 0]]).res = .done true
    ∧ (ProtocolEngine.transmit ⟨none, 0⟩ (.control .Ping)
      [.ok] [.ok [65, 0]]).st.tx_message_id = 0
    ∧ (ProtocolEngine.transmit ⟨none, 0⟩ (.control .Ping)
      [.ok, .ok, .ok, .ok]
      [.timeout, .timeout, .timeout, .timeout]).res = .done false
    ∧ (ProtocolEngine.transmit ⟨none, 0⟩ (.control .Ping)
      [.ok, .ok, .ok, .ok]
      [.timeout, .timeout, .timeout, .timeout]).st.tx_message_id = 0 := by
  decide

/-- C2: the claim says the FixedSupply PDO sent in reply to GetSinkCap has
voltage 100 (5 V in 50 mV units).  PolicyEngine::sink_capabilities passes
the literal 10 to the voltage field, so the transmitted PDO encodes
voltage 10 (0.5 V), contradicting both the claim and the source's own
comments (default 5V, 50mV resolution).  The run below handles
Control(GetSinkCap) with operating current 10 (the 100 mA configuration
of src/main.rs) and a successful transmission; the single transmitted
frame carries the PDO 10250, whose voltage field decodes to 10, not 100.
The operating_current field and the zero flags do agree with the claim. -/
theorem C2_sink_capabilities_voltage_is_10_not_100 :
    (PolicyEngine.handle_message 10 (.control .GetSinkCap) false ⟨none, 0⟩
      ⟨[], [.ok], [.ok [65, 0]], []⟩).res = .ok false
    ∧ (PolicyEngine.handle_message 10 (.control .GetSinkCap) false ⟨none, 0⟩
      ⟨[], [.ok], [.ok [65, 0]], []⟩).trace
      = [.frame ([68, 16] ++ u32LeBytes ((sinkCapObj 10).encode))]
    ∧ (FixedSupply.decode ((sinkCapObj 10).encode)).voltage = 10
    ∧ ¬ (FixedSupply.decode ((sinkCapObj 10).encode)).voltage = 100
    ∧ (FixedSupply.decode ((sinkCapObj 10).encode)).operating_current = 10
    ∧ (FixedSupply.decode ((sinkCapObj 10).encode)).dual_role_data = false
    ∧ (FixedSupply.decode ((sinkCapObj 10).encode)).usb_communications_capable
      = false
    ∧ (FixedSupply.decode ((sinkCapObj 10).encode)).unconstrained_power = false
    ∧ (FixedSupply.decode ((sinkCapObj 10).encode)).higher_capabilty = false
    ∧ (FixedSupply.decode ((sinkCapObj 10).encode)).dual_power_role = false := by
  decide

/-- C4: the claim (and the source's own comment: cannot send GoodCRC,
ignore received data and wait for retransmission) says a frame whose
GoodCRC reply is Discarded is abandoned.  The Discarded match arm in
ProtocolEngine::receive only logs and does not restart the loop, so
control falls through to delivery.  This theorem evaluates the model at
the failing input: a valid Ping frame with message id 3 whose GoodCRC
reply is Discarded is nevertheless delivered, and rx_message_id is
nevertheless updated to 3. -/
theorem C4_discarded_goodcrc_frame_still_delivered :
    (receiveAux 7 ⟨none, 0⟩ [.ok [69, 6]] [.errDiscarded]).res
      = .msg (.control .Ping)
    ∧ (receiveAux 7 ⟨none, 0⟩ [.ok [69, 6]] [.errDiscarded]).st.rx_message_id
      = some 3 := by
  decide

/-- C3 counterexample: the claim says transmit resets tx_message_id to 0
before assembling a SoftReset frame, so that the frame carries message id
0.  From the state with tx_message_id 5, the transmitted SoftReset frame
is [77, 10], whose header decodes to message id 5, not 0. -/
theorem C3_softreset_frame_carries_nonzero_id :
    (ProtocolEngine.transmit ⟨some 2, 5⟩ (.control .SoftReset)
      [.ok] [.ok [65, 10]]).res = .done true
    ∧ (ProtocolEngine.transmit ⟨some 2, 5⟩ (.control .SoftReset)
      [.ok] [.ok [65, 10]]).trace = [.frame [77, 10]]
    ∧ (Header.decode (leU16 [77, 10] 0)).message_id = 5
    ∧ ¬ (Header.decode (leU16 [77, 10] 0)).message_id = 0 := by
  decide

/-- C3 amended: on transmit of Control(SoftReset), rx_message_id is
cleared before the frame is emitted (it is none after the call on every
path), but tx_message_id is not reset, so every frame handed to the PHY
carries the pre-call tx_message_id rather than 0. -/
theorem C3_softreset_clears_rx_id_and_keeps_tx_id
    (st : ProtocolEngineState) (txs : List TxResult) (grxs : List TimedRx)
    (hlt : st.tx_message_id < 8) :
    (ProtocolEngine.transmit st (.control .SoftReset) txs grxs).st.rx_message_id
      = none
    ∧ (∀ c ∈ (ProtocolEngine.transmit st (.control .SoftReset) txs grxs).trace,
        c = .frame (transmitFrame st.tx_message_id (.control .SoftReset)))
    ∧ (Header.decode
        (leU16 (transmitFrame st.tx_message_id (.control .SoftReset)) 0)).message_id
      = st.tx_message_id := by
  refine ⟨?_, ?_, ?_⟩
  · simp only [ProtocolEngine.transmit, if_pos rfl]
    split <;> rfl
  · intro c hc
    exact ProtocolEngine.transmit_trace_all st (.control .SoftReset) txs grxs c hc
  · rw [transmitFrame_message_id]
    omega

/-- C3 witness. -/
theorem C3_softreset_clears_rx_id_and_keeps_tx_id_witness :
    (5 : Nat) < 8
    ∧ ((ProtocolEngine.transmit ⟨some 2, 5⟩ (.control .SoftReset)
        [.ok] [.ok [65, 10]]).st.rx_message_id = none
      ∧ (∀ c ∈ (ProtocolEngine.transmit ⟨some 2, 5⟩ (.control .SoftReset)
          [.ok] [.ok [65, 10]]).trace,
          c = .frame (transmitFrame 5 (.control .SoftReset)))
      ∧ (Header.decode
          (leU16 (transmitFrame 5 (.control .SoftReset)) 0)).message_id = 5) :=
  ⟨by decide,
    C3_softreset_clears_rx_id_and_keeps_tx_id ⟨some 2, 5⟩
      [.ok] [.ok [65, 10]] (by decide)⟩

/-- C6 counterexample: the claim says a configured current above 10230 mA
saturates to the 10-bit maximum 1023 and construction never fails.  At
10240 mA the computed value (10240 + 9) / 10 = 1024 does not fit in 10
bits, the u10 constructor's range assertion fails, and nothing is
stored. -/
theorem C6_no_saturation_at_10240 :
    PolicyEngine.new 10240 = none
    ∧ ¬ PolicyEngine.new 10240 = some 1023 := by
  decide

/-- C6 amended: for a configured current of at most 10230 mA the stored
value is the ceiling division (ma + 9) / 10, which reproduces the
requested current losslessly in 10 mA units (10 v is the least multiple of
10 at least ma) and fits in 10 bits; for any larger u16 value construction
fails (the u10 range assertion, or the u16 sum overflowing for
ma of at least 65527), and no saturation to 1023 takes place. -/
theorem C6_operating_current_conversion (ma : Nat) (hma : ma ≤ 65535) :
    (ma ≤ 10230 →
      PolicyEngine.new ma = some ((ma + 9) / 10)
      ∧ ma ≤ 10 * ((ma + 9) / 10)
      ∧ 10 * ((ma + 9) / 10) < ma + 10
      ∧ (ma + 9) / 10 ≤ 1023)
    ∧ (10230 < ma → PolicyEngine.new ma = none) := by
  constructor
  · intro h
    have hA : ma + 9 ≤ 65535 := by omega
    have hB : (ma + 9) / 10 ≤ 1023 := by omega
    refine ⟨?_, by omega, by omega, hB⟩
    simp only [PolicyEngine.new, hA, hB, if_true, if_pos]
  · intro h
    by_cases hA : ma + 9 ≤ 65535
    · have hB : ¬ (ma + 9) / 10 ≤ 1023 := by omega
      simp only [PolicyEngine.new, hA, if_true, hB, if_false]
    · simp only [PolicyEngine.new, hA, if_false]

/-- C6 witness. -/
theorem C6_operating_current_conversion_witness :
    (95 : Nat) ≤ 65535
    ∧ (((95 : Nat) ≤ 10230 →
        PolicyEngine.new 95 = some ((95 + 9) / 10)
        ∧ (95 : Nat) ≤ 10 * ((95 + 9) / 10)
        ∧ 10 * (((95 : Nat) + 9) / 10) < 95 + 10
        ∧ ((95 : Nat) + 9) / 10 ≤ 1023)
      ∧ ((10230 : Nat) < 95 → PolicyEngine.new 95 = none)) :=
  ⟨by decide, C6_operating_current_conversion 95 (by decide)⟩

/-- C10: when the receive loop drops an inbound event for a transient
reason (PHY CRC or overrun error, a frame shorter than two bytes, or a
length that disagrees with the header's object count), the iteration is a
complete no-op: the run over the remaining events starts from the very
same engine state (in particular rx_message_id and tx_message_id are
unchanged), no transmit-oracle entry is consumed and no frame is sent. -/
theorem C10_transient_drop_preserves_state
    (objBufLen : Nat) (st : ProtocolEngineState) (r : RxResult)
    (rxs : List RxResult) (txs : List TxResult)
    (h : isTransientDrop r = true) :
    receiveAux objBufLen st (r :: rxs) txs = receiveAux objBufLen st rxs txs := by
  cases r with
  | errCrc => rfl
  | errOverrun => rfl
  | errHardReset => simp [isTransientDrop] at h
  | ok bytes =>
    simp only [isTransientDrop, Bool.or_eq_true, decide_eq_true_eq] at h
    by_cases h2 : bytes.length < 2
    · simp only [receiveAux, if_pos h2]
    · have hne : bytes.length
          ≠ 2 + 4 * (Header.decode (leU16 bytes 0)).number_of_data_objects := by
        rcases h with h | h
        · exact absurd h h2
        · exact h
      simp only [receiveAux, if_neg h2, if_pos hne]

/-- C10 witness. -/
theorem C10_transient_drop_preserves_state_witness :
    isTransientDrop .errCrc = true
    ∧ receiveAux 7 ⟨none, 0⟩ [.errCrc] [.ok] = receiveAux 7 ⟨none, 0⟩ [] [.ok] :=
  ⟨by decide,
    C10_transient_drop_preserves_state 7 ⟨none, 0⟩ .errCrc [] [.ok] (by decide)⟩

set_option maxHeartbeats 1600000 in
/-- C5 counterexample: the claim says that on a negotiation timeout the
policy engine transmits a hard-reset signal via the PHY and then returns
HardReset.  In the run below the Request is transmitted successfully and
the sender-response deadline then expires; power_negotiation returns
HardReset, but the PHY trace contains only the Request frame and no
hard-reset signal: receive_timeout maps the timeout straight to the
HardReset error without calling transmit_hard_reset. -/
theorem C5_timeout_run_emits_no_hard_reset_signal :
    (PolicyEngine.power_negotiation 10 ⟨none, 0⟩
      ⟨[], [.ok], [.ok [65, 0]], [true]⟩).res = .hardReset
    ∧ (PolicyEngine.power_negotiation 10 ⟨none, 0⟩
      ⟨[], [.ok], [.ok [65, 0]], [true]⟩).trace
      = [.frame (transmitFrame 0 (.data .Request [requestObj 10]))]
    ∧ PhyCall.hardResetSignal ∉ (PolicyEngine.power_negotiation 10 ⟨none, 0⟩
      ⟨[], [.ok], [.ok [65, 0]], [true]⟩).trace := by
  decide

set_option maxHeartbeats 3200000 in
/-- C5 amended: during power negotiation, when a response deadline expires,
the policy engine returns HardReset to the outer loop, but no hard-reset
signal is transmitted via the PHY.  The first two conjuncts show this for
the Sender-Response wait following a successfully transmitted Request; the
last conjunct shows that every expired receive_timeout (the PS-transition
wait included) yields HardReset without performing any PHY call at all. -/
theorem C5_timeout_returns_hard_reset_without_signal
    (st : ProtocolEngineState) (op : Nat) (env : Env) (rest : List Bool)
    (htmo : env.tmo = true :: rest)
    (hok : (ProtocolEngine.transmit st (.data .Request [requestObj op])
        env.tx env.grx).res = .done true) :
    (PolicyEngine.power_negotiation op st env).res = .hardReset
    ∧ PhyCall.hardResetSignal
      ∉ (PolicyEngine.power_negotiation op st env).trace
    ∧ (∀ (d : Nat) (st2 : ProtocolEngineState) (env2 : Env)
        (rest2 : List Bool), env2.tmo = true :: rest2 →
        (PolicyEngine.receive_timeout d st2 env2).res = .hardReset
        ∧ (PolicyEngine.receive_timeout d st2 env2).trace = []) := by
  have hsig := ProtocolEngine.transmit_no_hard_reset_signal st
    (.data .Request [requestObj op]) env.tx env.grx
  refine ⟨?_, ?_, ?_⟩
  case _ =>
    simp only [PolicyEngine.power_negotiation, PolicyEngine.transmit,
      ProtocolEngine.transmitE]
    rw [hok]
    simp only [PEOut.bind, if_pos rfl, PolicyEngine.receive_timeout]
    rw [htmo]
    simp only [if_true, List.append_nil]
  case _ =>
    simp only [PolicyEngine.power_negotiation, PolicyEngine.transmit,
      ProtocolEngine.transmitE]
    rw [hok]
    simp only [PEOut.bind, if_pos rfl, PolicyEngine.receive_timeout]
    rw [htmo]
    simp only [if_true, List.append_nil]
    exact hsig
  case _ =>
    intro d st2 env2 rest2 h2
    simp only [PolicyEngine.receive_timeout]
    rw [h2]
    simp

/-- C5 witness. -/
theorem C5_timeout_returns_hard_reset_without_signal_witness :
    (⟨[], [.ok], [.ok [65, 0]], [true]⟩ : Env).tmo = [true]
    ∧ (ProtocolEngine.transmit ⟨none, 0⟩ (.data .Request [requestObj 10])
        [.ok] [.ok [65, 0]]).res = .done true
    ∧ ((PolicyEngine.power_negotiation 10 ⟨none, 0⟩
        ⟨[], [.ok], [.ok [65, 0]], [true]⟩).res = .hardReset
      ∧ PhyCall.hardResetSignal ∉ (PolicyEngine.power_negotiation 10 ⟨none, 0⟩
        ⟨[], [.ok], [.ok [65, 0]], [true]⟩).trace
      ∧ (∀ (d : Nat) (st2 : ProtocolEngineState) (env2 : Env)
          (rest2 : List Bool), env2.tmo = true :: rest2 →
          (PolicyEngine.receive_timeout d st2 env2).res = .hardReset
          ∧ (PolicyEngine.receive_timeout d st2 env2).trace = [])) :=
  ⟨by decide, by decide,
    C5_timeout_returns_hard_reset_without_signal ⟨none, 0⟩ 10
      ⟨[], [.ok], [.ok [65, 0]], [true]⟩ [] (by decide) (by decide)⟩

theorem receiveAux_same_id_drops_all (objBufLen x : Nat) :
    ∀ (rxs : List RxResult) (txs : List TxResult) (st : ProtocolEngineState),
      st.rx_message_id = some x →
      (∀ r ∈ rxs, isValidSameIdFrame x r = true) →
      (∀ t ∈ txs, t = TxResult.ok) →
      (receiveAux objBufLen st rxs txs).res = .outOfEnv
      ∧ (receiveAux objBufLen st rxs txs).st = st := by
  intro rxs
  induction rxs with
  | nil => intro txs st hst hall htx; exact ⟨rfl, rfl⟩
  | cons r rxs ih =>
    intro txs st hst hall htx
    have hr := hall r (List.mem_cons_self r rxs)
    cases r with
    | errCrc => simp [isValidSameIdFrame] at hr
    | errOverrun => simp [isValidSameIdFrame] at hr
    | errHardReset => simp [isValidSameIdFrame] at hr
    | ok bytes =>
      simp only [isValidSameIdFrame, Bool.and_eq_true, decide_eq_true_eq,
        Bool.not_eq_true', Bool.and_eq_false_iff, decide_eq_false_iff_not] at hr
      obtain ⟨⟨hlen, hid⟩, hnotsr⟩ := hr
      have h2 : ¬ (bytes.length < 2) := by omega
      simp only [receiveAux, if_neg h2, if_neg (not_not_intro hlen)]
      cases txs with
      | nil => exact ⟨rfl, rfl⟩
      | cons t txs' =>
        have ht : t = .ok := htx t (List.mem_cons_self t txs')
        subst ht
        have hcond : ¬ ((Header.decode (leU16 bytes 0)).number_of_data_objects = 0
            ∧ (Header.decode (leU16 bytes 0)).message_type
              = ControlMessageType.SoftReset.toU4) := by
          rcases hnotsr with h | h
          · exact fun hc => h hc.1
          · exact fun hc => h hc.2
        simp only [if_neg hcond, hst, hid, if_pos rfl,
          RecvOut.withTrace_res, RecvOut.withTrace_st]
        exact ih txs' st hst
          (fun r hrm => hall r (List.mem_cons_of_mem _ hrm))
          (fun t htm => htx t (List.mem_cons_of_mem _ htm))

/-- C7: after a frame with a given message id has been accepted
(rx_message_id records that id), every further valid inbound frame
carrying the same id, none of them a SoftReset, is dropped inside the
receive loop after its GoodCRC reply: starting from a state that has not
yet accepted the id, the first frame is delivered to the caller, and a
subsequent run over any number of same-id copies (each answered by a
successful GoodCRC transmission) never delivers a message and leaves the
engine state unchanged. -/
theorem C7_duplicate_frames_never_delivered
    (objBufLen x : Nat) (st : ProtocolEngineState) (bytes0 : List Nat)
    (rxs : List RxResult) (txs' : List TxResult)
    (hfresh : st.rx_message_id ≠ some x)
    (h0 : isValidSameIdFrame x (.ok bytes0) = true)
    (hall : ∀ r ∈ rxs, isValidSameIdFrame x r = true)
    (htx : ∀ t ∈ txs', t = TxResult.ok) :
    (receiveAux objBufLen st (.ok bytes0 :: rxs) (TxResult.ok :: txs')).res
      = .msg (decodeMessage objBufLen bytes0)
    ∧ (receiveAux objBufLen st (.ok bytes0 :: rxs)
        (TxResult.ok :: txs')).st.rx_message_id = some x
    ∧ (receiveAux objBufLen st (.ok bytes0 :: rxs)
        (TxResult.ok :: txs')).rxRest = rxs
    ∧ (receiveAux objBufLen st (.ok bytes0 :: rxs)
        (TxResult.ok :: txs')).txRest = txs'
    ∧ (receiveAux objBufLen
        (receiveAux objBufLen st (.ok bytes0 :: rxs) (TxResult.ok :: txs')).st
        rxs txs').res = .outOfEnv := by
  simp only [isValidSameIdFrame, Bool.and_eq_true, decide_eq_true_eq,
    Bool.not_eq_true', Bool.and_eq_false_iff, decide_eq_false_iff_not] at h0
  obtain ⟨⟨hlen, hid⟩, hnotsr⟩ := h0
  have h2 : ¬ (bytes0.length < 2) := by omega
  have hcond : ¬ ((Header.decode (leU16 bytes0 0)).number_of_data_objects = 0
      ∧ (Header.decode (leU16 bytes0 0)).message_type
        = ControlMessageType.SoftReset.toU4) := by
    rcases hnotsr with h | h
    · exact fun hc => h hc.1
    · exact fun hc => h hc.2
  simp only [receiveAux, if_neg h2, if_neg (not_not_intro hlen),
    if_neg hcond, hid, if_neg hfresh]
  refine ⟨trivial, trivial, trivial, trivial, ?_⟩
  exact (receiveAux_same_id_drops_all objBufLen x rxs txs'
    { st with rx_message_id := some x } rfl hall htx).1

/-- C7 witness. -/
theorem C7_duplicate_frames_never_delivered_witness :
    (⟨none, 0⟩ : ProtocolEngineState).rx_message_id ≠ some 3
    ∧ isValidSameIdFrame 3 (.ok [69, 6]) = true
    ∧ (∀ r ∈ [RxResult.ok [69, 6], RxResult.ok [69, 6]],
        isValidSameIdFrame 3 r = true)
    ∧ (∀ t ∈ [TxResult.ok, TxResult.ok], t = TxResult.ok)
    ∧ ((receiveAux 7 ⟨none, 0⟩
        (.ok [69, 6] :: [RxResult.ok [69, 6], RxResult.ok [69, 6]])
        (TxResult.ok :: [TxResult.ok, TxResult.ok])).res
        = .msg (decodeMessage 7 [69, 6])
      ∧ (receiveAux 7 ⟨none, 0⟩
          (.ok [69, 6] :: [RxResult.ok [69, 6], RxResult.ok [69, 6]])
          (TxResult.ok :: [TxResult.ok, TxResult.ok])).st.rx_message_id = some 3
      ∧ (receiveAux 7 ⟨none, 0⟩
          (.ok [69, 6] :: [RxResult.ok [69, 6], RxResult.ok [69, 6]])
          (TxResult.ok :: [TxResult.ok, TxResult.ok])).rxRest
          = [RxResult.ok [69, 6], RxResult.ok [69, 6]]
      ∧ (receiveAux 7 ⟨none, 0⟩
          (.ok [69, 6] :: [RxResult.ok [69, 6], RxResult.ok [69, 6]])
          (TxResult.ok :: [TxResult.ok, TxResult.ok])).txRest
          = [TxResult.ok, TxResult.ok]
      ∧ (receiveAux 7
          (receiveAux 7 ⟨none, 0⟩
            (.ok [69, 6] :: [RxResult.ok [69, 6], RxResult.ok [69, 6]])
            (TxResult.ok :: [TxResult.ok, TxResult.ok])).st
          [RxResult.ok [69, 6], RxResult.ok [69, 6]]
          [TxResult.ok, TxResult.ok]).res = .outOfEnv) :=
  ⟨by decide, by decide, by decide, by decide,
    C7_duplicate_frames_never_delivered 7 3 ⟨none, 0⟩ [69, 6]
      [RxResult.ok [69, 6], RxResult.ok [69, 6]] [TxResult.ok, TxResult.ok]
      (by decide) (by decide) (by decide) (by decide)⟩

/-- C8: whenever the receive loop returns a message to its caller, the
last PHY transmission it performed before returning is the GoodCRC reply
whose message id is the id recorded in rx_message_id at delivery; that
recorded id is exactly the received header's message id, which
ProtocolEngine::receive stores immediately before decoding and returning
the frame.  The trace lists the PHY calls of the run in execution order,
so the GoodCRC transmission precedes the delivery. -/
theorem C8_goodcrc_precedes_delivery (objBufLen : Nat) :
    ∀ (rxs : List RxResult) (txs : List TxResult)
      (st : ProtocolEngineState) (m : Message),
      (receiveAux objBufLen st rxs txs).res = .msg m →
      ∃ i, (receiveAux objBufLen st rxs txs).st.rx_message_id = some i
        ∧ (receiveAux objBufLen st rxs txs).trace.getLast?
          = some (.frame (goodCrcFrame i)) := by
  intro rxs
  induction rxs with
  | nil =>
    intro txs st m h
    simp [receiveAux] at h
  | cons r rxs ih =>
    intro txs st m h
    cases r with
    | errCrc => exact ih txs st m h
    | errOverrun => exact ih txs st m h
    | errHardReset => simp [receiveAux] at h
    | ok bytes =>
      by_cases h2 : bytes.length < 2
      · simp only [receiveAux, if_pos h2] at h ⊢
        exact ih txs st m h
      · by_cases hlen : bytes.length
            ≠ 2 + 4 * (Header.decode (leU16 bytes 0)).number_of_data_objects
        · simp only [receiveAux, if_neg h2, if_pos hlen] at h ⊢
          exact ih txs st m h
        · cases txs with
          | nil =>
            simp only [receiveAux, if_neg h2, if_neg hlen] at h
            simp at h
          | cons t txs' =>
            cases t with
            | errHardReset =>
              simp only [receiveAux, if_neg h2, if_neg hlen] at h
              simp at h
            | ok =>
              simp only [receiveAux, if_neg h2, if_neg hlen] at h ⊢
              by_cases hdup : (if (Header.decode (leU16 bytes 0)).number_of_data_objects = 0
                    ∧ (Header.decode (leU16 bytes 0)).message_type
                      = ControlMessageType.SoftReset.toU4
                  then handle_hard_reset else st).rx_message_id
                  = some (Header.decode (leU16 bytes 0)).message_id
              · simp only [if_pos hdup, RecvOut.withTrace_res,
                  RecvOut.withTrace_st, RecvOut.withTrace_trace] at h ⊢
                obtain ⟨i, hi, hlast⟩ := ih txs' _ m h
                refine ⟨i, hi, ?_⟩
                have hne : (receiveAux objBufLen
                    (if (Header.decode (leU16 bytes 0)).number_of_data_objects = 0
                        ∧ (Header.decode (leU16 bytes 0)).message_type
                          = ControlMessageType.SoftReset.toU4
                      then handle_hard_reset else st) rxs txs').trace ≠ [] := by
                  intro he
                  rw [he] at hlast
                  simp at hlast
                rw [List.getLast?_append_of_ne_nil _ hne]
                exact hlast
              · simp only [if_neg hdup] at h ⊢
                exact ⟨(Header.decode (leU16 bytes 0)).message_id, rfl, rfl⟩
            | errDiscarded =>
              simp only [receiveAux, if_neg h2, if_neg hlen] at h ⊢
              by_cases hdup : (if (Header.decode (leU16 bytes 0)).number_of_data_objects = 0
                    ∧ (Header.decode (leU16 bytes 0)).message_type
                      = ControlMessageType.SoftReset.toU4
                  then handle_hard_reset else st).rx_message_id
                  = some (Header.decode (leU16 bytes 0)).message_id
              · simp only [if_pos hdup, RecvOut.withTrace_res,
                  RecvOut.withTrace_st, RecvOut.withTrace_trace] at h ⊢
                obtain ⟨i, hi, hlast⟩ := ih txs' _ m h
                refine ⟨i, hi, ?_⟩
                have hne : (receiveAux objBufLen
                    (if (Header.decode (leU16 bytes 0)).number_of_data_objects = 0
                        ∧ (Header.decode (leU16 bytes 0)).message_type
                          = ControlMessageType.SoftReset.toU4
                      then handle_hard_reset else st) rxs txs').trace ≠ [] := by
                  intro he
                  rw [he] at hlast
                  simp at hlast
                rw [List.getLast?_append_of_ne_nil _ hne]
                exact hlast
              · simp only [if_neg hdup] at h ⊢
                exact ⟨(Header.decode (leU16 bytes 0)).message_id, rfl, rfl⟩

/-- C8 witness. -/
theorem C8_goodcrc_precedes_delivery_witness :
    (receiveAux 7 ⟨none, 0⟩ [.ok [69, 6]] [.ok]).res = .msg (.control .Ping)
    ∧ ∃ i, (receiveAux 7 ⟨none, 0⟩ [.ok [69, 6]] [.ok]).st.rx_message_id = some i
      ∧ (receiveAux 7 ⟨none, 0⟩ [.ok [69, 6]] [.ok]).trace.getLast?
        = some (.frame (goodCrcFrame i)) :=
  ⟨by decide,
    C8_goodcrc_precedes_delivery 7 [.ok [69, 6]] [.ok] ⟨none, 0⟩
      (.control .Ping) (by decide)⟩

theorem dataObjs_decodeMessage_zero (bytes : List Nat) :
    dataObjs (decodeMessage 0 bytes) = [] := by
  simp only [decodeMessage]
  split
  · rfl
  · simp [dataObjs, Nat.zero_min]

theorem receiveAux_zero_buf_no_objs :
    ∀ (rxs : List RxResult) (txs : List TxResult)
      (st : ProtocolEngineState) (m : Message),
      (receiveAux 0 st rxs txs).res = .msg m → dataObjs m = [] := by
  intro rxs
  induction rxs with
  | nil =>
    intro txs st m h
    simp [receiveAux] at h
  | cons r rxs ih =>
    intro txs st m h
    cases r with
    | errCrc => exact ih txs st m h
    | errOverrun => exact ih txs st m h
    | errHardReset => simp [receiveAux] at h
    | ok bytes =>
      by_cases h2 : bytes.length < 2
      · simp only [receiveAux, if_pos h2] at h
        exact ih txs st m h
      · by_cases hlen : bytes.length
            ≠ 2 + 4 * (Header.decode (leU16 bytes 0)).number_of_data_objects
        · simp only [receiveAux, if_neg h2, if_pos hlen] at h
          exact ih txs st m h
        · cases txs with
          | nil =>
            simp only [receiveAux, if_neg h2, if_neg hlen] at h
            simp at h
          | cons t txs' =>
            cases t with
            | errHardReset =>
              simp only [receiveAux, if_neg h2, if_neg hlen] at h
              simp at h
            | ok =>
              simp only [receiveAux, if_neg h2, if_neg hlen] at h
              by_cases hdup : (if (Header.decode (leU16 bytes 0)).number_of_data_objects = 0
                    ∧ (Header.decode (leU16 bytes 0)).message_type
                      = ControlMessageType.SoftReset.toU4
                  then handle_hard_reset else st).rx_message_id
                  = some (Header.decode (leU16 bytes 0)).message_id
              · simp only [if_pos hdup, RecvOut.withTrace_res] at h
                exact ih txs' _ m h
              · simp only [if_neg hdup] at h
                cases h
                exact dataObjs_decodeMessage_zero bytes
            | errDiscarded =>
              simp only [receiveAux, if_neg h2, if_neg hlen] at h
              by_cases hdup : (if (Header.decode (leU16 bytes 0)).number_of_data_objects = 0
                    ∧ (Header.decode (leU16 bytes 0)).message_type
                      = ControlMessageType.SoftReset.toU4
                  then handle_hard_reset else st).rx_message_id
                  = some (Header.decode (leU16 bytes 0)).message_id
              · simp only [if_pos hdup, RecvOut.withTrace_res] at h
                exact ih txs' _ m h
              · simp only [if_neg hdup] at h
                cases h
                exact dataObjs_decodeMessage_zero bytes

theorem PolicyEngine.receive_zero_buf_no_objs
    (st : ProtocolEngineState) (env : Env) (m : Message)
    (h : (PolicyEngine.receive 0 st env).res = .ok m) :
    dataObjs m = [] := by
  simp only [PolicyEngine.receive, ProtocolEngine.receiveE] at h
  rcases hres : (receiveAux 0 st env.rx env.tx).res with m0 | _ | _ <;>
    rw [hres] at h <;> simp only [PEOut.bind] at h
  · split at h
    · split at h <;> simp at h
    · cases h
      exact receiveAux_zero_buf_no_objs env.rx env.tx st m hres
  · simp at h
  · simp at h

/-- C9: PolicyEngine::receive_timeout awaits the negotiation response with
a zero-length object buffer (the source passes an empty slice to the
receive wrapper), so every message it successfully delivers carries an
empty data-object list: a Data message arriving in that window has all of
its data objects silently truncated away. -/
theorem C9_receive_timeout_delivers_empty_data
    (d : Nat) (st : ProtocolEngineState) (env : Env) (m : Message)
    (h : (PolicyEngine.receive_timeout d st env).res = .ok m) :
    dataObjs m = [] := by
  simp only [PolicyEngine.receive_timeout] at h
  rcases htmo : env.tmo with _ | ⟨b, rest⟩
  · rw [htmo] at h
    cases h
  · rw [htmo] at h
    cases b
    · simp only [Bool.false_eq_true, if_false] at h
      exact PolicyEngine.receive_zero_buf_no_objs st _ m h
    · simp only [if_true] at h
      cases h

/-- C9 witness: a SourceCapabilities frame with one data object arriving
during the wait is delivered as a Data message with an empty object
list. -/
theorem C9_receive_timeout_delivers_empty_data_witness :
    (PolicyEngine.receive_timeout TIMEOUT_SENDER_RESPONSE ⟨none, 0⟩
      ⟨[.ok [65, 16, 1, 2, 3, 4]], [.ok], [], [false]⟩).res
      = .ok (.data .SourceCapabilites [])
    ∧ dataObjs (.data .SourceCapabilites []) = [] :=
  ⟨by decide,
    C9_receive_timeout_delivers_empty_data TIMEOUT_SENDER_RESPONSE ⟨none, 0⟩
      ⟨[.ok [65, 16, 1, 2, 3, 4]], [.ok], [], [false]⟩
      (.data .SourceCapabilites []) (by decide)⟩

end UsbPd
